import Mathlib

/-!
Verification of the natural-language specification of vws-web-tools
against a shallow embedding of the code in
src/src/vws_web_tools/__init__.py (the current module; its unit tests
live in src/tests).

Conventions of the embedding:
- Python strings are Lean String or List Char; quote characters are
  named constants built with Char.ofNat so that the development never
  spells them inline.
- Python exceptions are values of the inductive type PyErr; fallible
  Python code is embedded as Except PyErr.
- Third-party primitives that the module calls but does not define
  (selenium WebDriverWait, click option parsing, yaml.dump) are
  modelled from the specification; each such definition carries a doc
  comment starting with: Modelled from the spec.
-/

namespace VwsWebTools

/-- The single-quote character, U+0027. -/
def squote : Char := Char.ofNat 39

/-- The double-quote character, U+0022. -/
def dquote : Char := Char.ofNat 34

/-- A one-character string holding a single quote. -/
def squoteS : String := String.singleton squote

/-- A one-character string holding a double quote. -/
def dquoteS : String := String.singleton dquote

/-- Embedding of the function at lines 524-530 of
src/src/vws_web_tools/__init__.py.  The Python body is a single
f-string that surrounds the value with one single-quote character on
each side, unconditionally, whatever the value contains. -/
def _xpath_literal (value : String) : String :=
  squoteS ++ value ++ squoteS

/-- Model of the Python expression text.split(sep) for a one-character
separator: the list of maximal separator-free segments, keeping empty
segments, so that the result always has one more element than the
number of separator occurrences. -/
def splitOnChar (sep : Char) : List Char → List (List Char)
  | [] => [[]]
  | c :: cs =>
    match splitOnChar sep cs with
    | [] => [[]]
    | seg :: rest =>
      if c = sep then [] :: seg :: rest else (c :: seg) :: rest

/-- Modelled from the spec: the three-case XPath string-literal builder
that the specification (section 4.2) describes and that the unit test
test_xpath_literal_handles_quoted_values pins down: double-quote
wrapping when the value has no double quote, single-quote wrapping when
it has double quotes but no single quote, and otherwise a concat
expression of the single-quote-free segments interleaved with
double-quoted single-quote fragments. -/
def _xpath_literal_spec (value : String) : String :=
  if value.data.all (fun c => !(c = dquote)) then
    dquoteS ++ value ++ dquoteS
  else if value.data.all (fun c => !(c = squote)) then
    squoteS ++ value ++ squoteS
  else
    let parts : List String :=
      (splitOnChar squote value.data).map
        (fun seg => squoteS ++ String.mk seg ++ squoteS)
    let pieces : List String :=
      List.intersperse (dquoteS ++ squoteS ++ dquoteS) parts
    "concat(" ++ String.intercalate (", ") pieces ++ ")"

/-- Helper for parseXPathLiteral: when the character list is a
well-formed literal delimited by the quote character q, return the body
between the delimiters; otherwise return none.  A well-formed literal
has q first, q last, at least two characters, and no q in between. -/
def literalBody (q : Char) (cs : List Char) : Option (List Char) :=
  match cs with
  | [] => none
  | c :: rest =>
    if c = q then
      match rest.getLast? with
      | some d =>
        if d = q ∧ rest.dropLast.all (fun x => !(x = q)) then
          some rest.dropLast
        else none
      | none => none
    else none

/-- Recognizer for syntactically valid XPath string literals: a
single-quoted run with no interior single quote, or a double-quoted run
with no interior double quote.  On success it returns the string the
literal denotes. -/
def parseXPathLiteral (s : String) : Option String :=
  match literalBody squote s.data with
  | some b => some (String.mk b)
  | none =>
    match literalBody dquote s.data with
    | some b => some (String.mk b)
    | none => none

/-- The concrete input used to exhibit the C1 divergence: the string
a-quote-b, which contains a single quote and no double quote. -/
def c1Input : String := "a" ++ squoteS ++ "b"

/-- The concrete input used to exhibit the C2 divergence: the string
whose characters are a, single quote, double quote, b. -/
def c2Input : String := "a" ++ squoteS ++ dquoteS ++ "b"

/-- Claim C1 (code bug evaluation): on the input with a single quote
and no double quote, the code wraps in single quotes, producing a
string that differs from the double-quote wrapping the claim and the
repository test test_xpath_literal_handles_quoted_values require, and
that is not even a syntactically valid XPath literal; the spec-modelled
builder produces exactly the required double-quote wrapping. -/
theorem xpath_literal_c1_bug :
    _xpath_literal c1Input = squoteS ++ "a" ++ squoteS ++ "b" ++ squoteS
    ∧ _xpath_literal c1Input ≠ dquoteS ++ c1Input ++ dquoteS
    ∧ parseXPathLiteral (_xpath_literal c1Input) = none
    ∧ _xpath_literal_spec c1Input = dquoteS ++ c1Input ++ dquoteS := by
  refine ⟨by decide, by decide, by decide, by decide⟩

/-- Claim C2 (code bug evaluation): on the input holding both quote
characters, the code still wraps in single quotes, yielding no concat
expression and no valid XPath literal at all, so no reading of the
output reconstructs the input; the spec-modelled builder produces the
concat expression the repository test requires. -/
theorem xpath_literal_c2_bug :
    _xpath_literal c2Input = squoteS ++ c2Input ++ squoteS
    ∧ ¬ ((_xpath_literal c2Input).startsWith ("concat("))
    ∧ parseXPathLiteral (_xpath_literal c2Input) = none
    ∧ _xpath_literal_spec c2Input =
        "concat(" ++ squoteS ++ "a" ++ squoteS ++ ", "
          ++ dquoteS ++ squoteS ++ dquoteS ++ ", "
          ++ squoteS ++ dquoteS ++ "b" ++ squoteS ++ ")" := by
  refine ⟨by decide, by decide, by decide, by decide⟩

/-- Claim C10: on the empty input string the builder returns a
syntactically valid XPath string literal denoting the empty string. -/
theorem xpath_literal_empty_valid :
    parseXPathLiteral (_xpath_literal ("")) = some ("") := by
  decide

/-- Python exception values that appear in the embedded code paths.
timeoutExc models selenium TimeoutException, indexErr the bare
IndexError a [0] subscript raises on an empty list, retryErr the
tenacity RetryError raised when the stop condition was reached. -/
inductive PyErr where
  | timeoutExc
  | indexErr
  | noSuchElement
  | staleElement
  | retryErr
  | otherErr
deriving DecidableEq

/-- The slash character, U+002F. -/
def slashChar : Char := Char.ofNat 47

/-- The colon character, U+003A. -/
def colonChar : Char := Char.ofNat 58

/-- The question-mark character, U+003F. -/
def qmarkChar : Char := Char.ofNat 63

/-- The hash character, U+0023. -/
def hashChar : Char := Char.ofNat 35


/-- Helper for urlPath: drop characters up to and including the first
occurrence of the three-character pattern colon slash slash, returning
the remainder, or none when the pattern does not occur. -/
def afterColonSlashSlash : List Char → Option (List Char)
  | [] => none
  | c :: cs =>
    match cs with
    | a :: b :: rest =>
      if c = colonChar ∧ a = slashChar ∧ b = slashChar then some rest
      else afterColonSlashSlash cs
    | _ => none

/-- Model of the path attribute of urllib.parse.urlparse for the
absolute URLs this module handles: cut the string at the first question
mark or hash, skip the scheme marker and the authority that follows it,
and keep from the first subsequent slash on; a string with no scheme
marker is all path. -/
def urlPath (cs : List Char) : List Char :=
  let stopped := cs.takeWhile (fun c => !(c = qmarkChar) && !(c = hashChar))
  match afterColonSlashSlash stopped with
  | some rest => rest.dropWhile (fun c => !(c = slashChar))
  | none => stopped

/-- Model of the Python expression path.rstrip applied to the slash
character: remove every trailing slash. -/
def rstripSlashes (cs : List Char) : List Char :=
  (cs.reverse.dropWhile (fun c => c = slashChar)).reverse

/-- Model of the Python subscript [-1] on the result of a split, which
is always a nonempty list: the last element, with a default for the
impossible empty case. -/
def lastSegment : List (List Char) → List Char
  | [] => []
  | [x] => x
  | _ :: x :: xs => lastSegment (x :: xs)

/-- Embedding of the last two lines of get_vumark_target_id (lines
697-698 of src/src/vws_web_tools/__init__.py): take the path of the
link URL, strip trailing slashes, split on slash, take the last
component. -/
def targetIdOfLink (link : String) : String :=
  String.mk (lastSegment (splitOnChar slashChar (rstripSlashes (urlPath link.data))))

/-- The final path segment of a URL path, as the specification words
it: after discarding trailing slashes, the maximal slash-free suffix.
This definition follows the words of the claim, to be compared with the
split-based computation the code performs. -/
def finalPathSegment (path : List Char) : List Char :=
  ((path.reverse.dropWhile (fun c => c = slashChar)).takeWhile
    (fun c => !(c = slashChar))).reverse

/-- One row of the rendered targets table that matches the requested
target name: either a clickable anchor carrying a link URL, or an inert
plain-text cell (a target still processing server-side). -/
structure TargetRow where
  isLink : Bool
  href : String
deriving DecidableEq

/-- Embedding of _find_vumark_target_link (lines 533-567): collect the
anchor elements matching the target-row predicate and subscript the
list at 0.  With no matching anchor the subscript raises a bare
IndexError; there is no named error condition in this code. -/
def _find_vumark_target_link (rows : List TargetRow) : Except PyErr String :=
  match rows.filter (fun r => r.isLink) with
  | [] => Except.error PyErr.indexErr
  | e :: _ => Except.ok e.href

/-- Embedding of get_vumark_target_id (lines 629-698) over the row
model, after page navigation and readiness waits: the wait for the
presence of any element matching the target-row predicate raises
TimeoutException when no row matches at all; then the link lookup runs,
and on success the target ID is the last path segment of the link. -/
def get_vumark_target_id (rows : List TargetRow) : Except PyErr String :=
  if rows.isEmpty then Except.error PyErr.timeoutExc
  else
    match _find_vumark_target_link rows with
    | Except.error e => Except.error e
    | Except.ok link => Except.ok (targetIdOfLink link)

/-- A matching row rendered as inert plain text, not as a link. -/
def inertTextRow : TargetRow := { isLink := false, href := "" }

/-- Claim C3 (code bug evaluation): with the target row present only as
inert plain text the code raises a bare IndexError, and with no
matching row at all it raises a generic TimeoutException; the two
outcomes are generic failures, not the two distinct, explicitly named
error conditions the claim and the repository tests
test_find_vumark_target_link_raises_when_target_name_is_not_link and
test_get_vumark_target_id_wraps_missing_link_error require. -/
theorem vumark_target_lookup_c3_bug :
    get_vumark_target_id [inertTextRow] = Except.error PyErr.indexErr
    ∧ get_vumark_target_id [] = Except.error PyErr.timeoutExc
    ∧ PyErr.indexErr ≠ PyErr.timeoutExc := by
  refine ⟨by rfl, by rfl, by decide⟩

/-- The result of splitOnChar is never the empty list. -/
lemma splitOnChar_ne_nil (sep : Char) (l : List Char) :
    splitOnChar sep l ≠ [] := by
  induction l with
  | nil => simp [splitOnChar]
  | cons c cs ih =>
    cases h : splitOnChar sep cs with
    | nil => exact absurd h ih
    | cons seg rest =>
      simp only [splitOnChar, h]
      split <;> simp

/-- On a list free of the separator, splitOnChar returns the single
segment holding the whole list. -/
lemma splitOnChar_no_sep (sep : Char) (l : List Char)
    (h : ∀ x ∈ l, ¬(x = sep)) : splitOnChar sep l = [l] := by
  induction l with
  | nil => rfl
  | cons c cs ih =>
    have hc : ¬(c = sep) := h c (by simp)
    have hrec : splitOnChar sep cs = [cs] :=
      ih (fun x hx => h x (by simp [hx]))
    simp [splitOnChar, hrec, hc]

/-- When the separator occurs in the list, splitOnChar returns at least
two segments. -/
lemma splitOnChar_two_le (sep : Char) (l : List Char)
    (h : sep ∈ l) : 2 ≤ (splitOnChar sep l).length := by
  induction l with
  | nil => simp at h
  | cons c cs ih =>
    cases hs : splitOnChar sep cs with
    | nil => exact absurd hs (splitOnChar_ne_nil sep cs)
    | cons seg rest =>
      by_cases hc : c = sep
      · simp [splitOnChar, hs, hc]
      · have hmem : sep ∈ cs := by
          rcases List.mem_cons.mp h with h1 | h1
          · exact absurd h1.symm hc
          · exact h1
        have := ih hmem
        rw [hs] at this
        simp only [splitOnChar, hs, hc, if_false]
        simpa using this

/-- Dropping the head of a list of at least two segments does not
change the last segment. -/
lemma lastSegment_cons_of_ne (a : List Char) (l : List (List Char))
    (h : l ≠ []) : lastSegment (a :: l) = lastSegment l := by
  cases l with
  | nil => exact absurd rfl h
  | cons x xs => rfl

/-- takeWhile runs past a prefix on which the predicate always holds. -/
lemma takeWhile_append_of_all (p : Char → Bool) (xs ys : List Char)
    (h : ∀ x ∈ xs, p x = true) :
    (xs ++ ys).takeWhile p = xs ++ ys.takeWhile p := by
  induction xs with
  | nil => simp
  | cons a l ih =>
    have ha : p a = true := h a (by simp)
    simp [List.takeWhile_cons, ha, ih (fun x hx => h x (by simp [hx]))]

/-- takeWhile stops inside a prefix on which the predicate fails
somewhere, so the suffix is irrelevant. -/
lemma takeWhile_append_of_stop (p : Char → Bool) (xs ys : List Char)
    (h : ∃ x ∈ xs, p x = false) :
    (xs ++ ys).takeWhile p = xs.takeWhile p := by
  induction xs with
  | nil => simp at h
  | cons a l ih =>
    by_cases hpa : p a = true
    · have hl : ∃ x ∈ l, p x = false := by
        rcases h with ⟨x, hx, hpx⟩
        rcases List.mem_cons.mp hx with h1 | h1
        · rw [h1] at hpx; rw [hpa] at hpx; cases hpx
        · exact ⟨x, h1, hpx⟩
      simp [List.takeWhile_cons, hpa, ih hl]
    · have hfa : p a = false := by
        cases hv : p a
        · rfl
        · exact absurd hv hpa
      simp [List.takeWhile_cons, hfa]

/-- The last segment of a split is the maximal separator-free suffix:
the split-and-subscript computation of the code agrees with the
suffix-reading of the specification. -/
lemma lastSegment_splitOnChar (sep : Char) (l : List Char) :
    lastSegment (splitOnChar sep l)
      = (l.reverse.takeWhile (fun c => !(c = sep))).reverse := by
  induction l with
  | nil => rfl
  | cons c cs ih =>
    by_cases hmem : sep ∈ cs
    · have hstop : ∃ x ∈ cs.reverse, (fun c => !(c = sep)) x = false :=
        ⟨sep, by simpa using hmem, by simp⟩
      have hrhs :
          ((c :: cs).reverse.takeWhile (fun c => !(c = sep))).reverse
            = (cs.reverse.takeWhile (fun c => !(c = sep))).reverse := by
        rw [List.reverse_cons, takeWhile_append_of_stop _ _ _ hstop]
      rw [hrhs, ← ih]
      cases hs : splitOnChar sep cs with
      | nil => exact absurd hs (splitOnChar_ne_nil sep cs)
      | cons seg rest =>
        have hlen := splitOnChar_two_le sep cs hmem
        rw [hs] at hlen
        have hrest : rest ≠ [] := by
          cases rest with
          | nil => simp at hlen
          | cons r rs => simp
        by_cases hc : c = sep
        · simp only [splitOnChar, hs, hc, if_true]
          rw [lastSegment_cons_of_ne _ _ (by simp)]
        · simp only [splitOnChar, hs, hc, if_false]
          rw [lastSegment_cons_of_ne _ _ hrest]
          exact (lastSegment_cons_of_ne seg rest hrest).symm
    · have hall : ∀ x ∈ cs.reverse, (fun c => !(c = sep)) x = true := by
        intro x hx
        have hxcs : x ∈ cs := by simpa using hx
        have hne : ¬(x = sep) := fun he => hmem (he ▸ hxcs)
        simp [hne]
      have hsplit : splitOnChar sep cs = [cs] :=
        splitOnChar_no_sep sep cs
          (fun x hx he => hmem (he ▸ hx))
      by_cases hc : c = sep
      · have hrhs :
            (c :: cs).reverse.takeWhile (fun c => !(c = sep))
              = cs.reverse := by
          rw [List.reverse_cons, takeWhile_append_of_all _ _ _ hall]
          simp [List.takeWhile_cons, hc]
        rw [hrhs, List.reverse_reverse]
        simp [splitOnChar, hsplit, hc, lastSegment]
      · have hrhs :
            (c :: cs).reverse.takeWhile (fun c => !(c = sep))
              = cs.reverse ++ [c] := by
          rw [List.reverse_cons, takeWhile_append_of_all _ _ _ hall]
          simp [List.takeWhile_cons, hc]
        rw [hrhs]
        simp [splitOnChar, hsplit, hc, lastSegment]

/-- The code computation on a path equals the final path segment as the
specification words it. -/
lemma targetIdOfPath_eq_finalPathSegment (path : List Char) :
    lastSegment (splitOnChar slashChar (rstripSlashes path))
      = finalPathSegment path := by
  rw [rstripSlashes, lastSegment_splitOnChar, finalPathSegment,
    List.reverse_reverse]

/-- Claim C9: whenever the requested target row resolves to a link, the
target ID the code returns is exactly the final path segment of the
link URL: the path of the URL with trailing slashes stripped, read at
its last slash-separated component. -/
theorem get_vumark_target_id_is_final_segment (href : String)
    (rest : List TargetRow) :
    get_vumark_target_id ({ isLink := true, href := href } :: rest)
      = Except.ok (String.mk (finalPathSegment (urlPath href.data))) := by
  have hfind :
      _find_vumark_target_link ({ isLink := true, href := href } :: rest)
        = Except.ok href := by
    rw [_find_vumark_target_link]
    rw [List.filter_cons_of_pos (by rfl)]
  rw [get_vumark_target_id]
  simp only [List.isEmpty_cons, hfind]
  rw [if_neg (by simp)]
  rw [targetIdOfLink, targetIdOfPath_eq_finalPathSegment]

/-- One evaluation of a wait predicate against the page state: a truthy
result carrying a value, a falsy result, or a raised exception. -/
inductive PollOutcome (α : Type) where
  | val (a : α)
  | notReady
  | raises (e : PyErr)
deriving DecidableEq

/-- Whether one predicate evaluation lets the polling loop continue: a
falsy result does, and so does an exception whose type is in the
ignored set. -/
def quietStep (ign : PyErr → Bool) : PollOutcome α → Bool
  | PollOutcome.val _ => false
  | PollOutcome.notReady => true
  | PollOutcome.raises e => ign e

/-- Helper for waitUntil: fuel counts the predicate evaluations still
allowed before the deadline, i is the index of the next evaluation. -/
def waitUntilAux (pred : Nat → PollOutcome α) (ign : PyErr → Bool) :
    Nat → Nat → Except PyErr (α × Nat)
  | 0, _ => Except.error PyErr.timeoutExc
  | fuel + 1, i =>
    match pred i with
    | PollOutcome.val a => Except.ok (a, i)
    | PollOutcome.notReady => waitUntilAux pred ign fuel (i + 1)
    | PollOutcome.raises e =>
      if ign e then waitUntilAux pred ign fuel (i + 1)
      else Except.error e

/-- Modelled from the spec: the polling and wait helper (realized in
the module by selenium WebDriverWait together with its until method,
whose implementation is outside this repository).  It repeatedly
evaluates the predicate, returns the first truthy result together with
the index of the evaluation that produced it, swallows falsy results
and exceptions in the ignored set, raises a timeout failure when the
deadline is reached without success, and propagates any other
exception at once. -/
def waitUntil (pred : Nat → PollOutcome α) (timeout : Nat)
    (ign : PyErr → Bool) : Except PyErr (α × Nat) :=
  waitUntilAux pred ign timeout 0

/-- Auxiliary success lemma for waitUntil, generalized over the start
index of the polling loop. -/
lemma waitUntilAux_ok (pred : Nat → PollOutcome α) (ign : PyErr → Bool) :
    ∀ fuel start k a, k < fuel →
      (∀ j, j < k → quietStep ign (pred (start + j)) = true) →
      pred (start + k) = PollOutcome.val a →
      waitUntilAux pred ign fuel start = Except.ok (a, start + k) := by
  intro fuel
  induction fuel with
  | zero => intro start k a hk; omega
  | succ n ih =>
    intro start k a hk hq hv
    cases k with
    | zero =>
      simp only [Nat.add_zero] at hv
      simp [waitUntilAux, hv]
    | succ m =>
      have h0 : quietStep ign (pred (start + 0)) = true := hq 0 (by omega)
      simp only [Nat.add_zero] at h0
      have hrec := ih (start + 1) m a (by omega)
        (fun j hj => by
          have := hq (j + 1) (by omega)
          simpa [Nat.add_assoc, Nat.add_comm 1 j] using this)
        (by simpa [Nat.add_assoc, Nat.add_comm 1 m] using hv)
      cases hp : pred start with
      | val b => rw [hp] at h0; simp [quietStep] at h0
      | notReady =>
        simp only [waitUntilAux, hp]
        rw [hrec]
        have heq : start + 1 + m = start + (m + 1) := by omega
        rw [heq]
      | raises e =>
        rw [hp] at h0
        simp only [quietStep] at h0
        simp only [waitUntilAux, hp, h0, if_true]
        rw [hrec]
        have heq : start + 1 + m = start + (m + 1) := by omega
        rw [heq]

/-- Auxiliary timeout lemma for waitUntil, generalized over the start
index of the polling loop. -/
lemma waitUntilAux_timeout (pred : Nat → PollOutcome α)
    (ign : PyErr → Bool) :
    ∀ fuel start,
      (∀ j, j < fuel → quietStep ign (pred (start + j)) = true) →
      waitUntilAux pred ign fuel start = Except.error PyErr.timeoutExc := by
  intro fuel
  induction fuel with
  | zero => intro start _; rfl
  | succ n ih =>
    intro start hq
    have h0 : quietStep ign (pred (start + 0)) = true := hq 0 (by omega)
    simp only [Nat.add_zero] at h0
    have hrec := ih (start + 1)
      (fun j hj => by
        have := hq (j + 1) (by omega)
        simpa [Nat.add_assoc, Nat.add_comm 1 j] using this)
    cases hp : pred start with
    | val b => rw [hp] at h0; simp [quietStep] at h0
    | notReady => simp only [waitUntilAux, hp]; exact hrec
    | raises e =>
      rw [hp] at h0
      simp only [quietStep] at h0
      simp only [waitUntilAux, hp, h0, if_true]
      exact hrec

/-- Auxiliary propagation lemma for waitUntil, generalized over the
start index of the polling loop. -/
lemma waitUntilAux_raises (pred : Nat → PollOutcome α)
    (ign : PyErr → Bool) :
    ∀ fuel start k e, k < fuel →
      (∀ j, j < k → quietStep ign (pred (start + j)) = true) →
      pred (start + k) = PollOutcome.raises e →
      ign e = false →
      waitUntilAux pred ign fuel start = Except.error e := by
  intro fuel
  induction fuel with
  | zero => intro start k e hk; omega
  | succ n ih =>
    intro start k e hk hq hv hig
    cases k with
    | zero =>
      simp only [Nat.add_zero] at hv
      simp [waitUntilAux, hv, hig]
    | succ m =>
      have h0 : quietStep ign (pred (start + 0)) = true := hq 0 (by omega)
      simp only [Nat.add_zero] at h0
      have hrec := ih (start + 1) m e (by omega)
        (fun j hj => by
          have := hq (j + 1) (by omega)
          simpa [Nat.add_assoc, Nat.add_comm 1 j] using this)
        (by simpa [Nat.add_assoc, Nat.add_comm 1 m] using hv) hig
      cases hp : pred start with
      | val b => rw [hp] at h0; simp [quietStep] at h0
      | notReady => simp only [waitUntilAux, hp]; exact hrec
      | raises f =>
        rw [hp] at h0
        simp only [quietStep] at h0
        simp only [waitUntilAux, hp, h0, if_true]
        exact hrec

/-- Claim C4: for every predicate, timeout and ignored set, the polling
helper returns the first truthy predicate result at the evaluation that
produced it, before the deadline; raises a timeout failure when every
evaluation before the deadline is falsy or an ignored exception; and
propagates immediately any exception outside the ignored set. -/
theorem waitUntil_contract (pred : Nat → PollOutcome α) (timeout : Nat)
    (ign : PyErr → Bool) :
    (∀ k a, k < timeout →
      (∀ j, j < k → quietStep ign (pred j) = true) →
      pred k = PollOutcome.val a →
      waitUntil pred timeout ign = Except.ok (a, k))
    ∧ ((∀ j, j < timeout → quietStep ign (pred j) = true) →
      waitUntil pred timeout ign = Except.error PyErr.timeoutExc)
    ∧ (∀ k e, k < timeout →
      (∀ j, j < k → quietStep ign (pred j) = true) →
      pred k = PollOutcome.raises e →
      ign e = false →
      waitUntil pred timeout ign = Except.error e) := by
  refine ⟨?_, ?_, ?_⟩
  · intro k a hk hq hv
    have := waitUntilAux_ok pred ign timeout 0 k a hk
      (fun j hj => by simpa using hq j hj) (by simpa using hv)
    simpa [waitUntil] using this
  · intro hq
    exact waitUntilAux_timeout pred ign timeout 0
      (fun j hj => by simpa using hq j hj)
  · intro k e hk hq hv hig
    exact waitUntilAux_raises pred ign timeout 0 k e hk
      (fun j hj => by simpa using hq j hj) (by simpa using hv) hig

/-- A concrete polling predicate for the waitUntil witness: falsy at
step zero, an ignored stale-element exception at step one, truthy with
value seven at step two. -/
def predEx : Nat → PollOutcome Nat :=
  fun n =>
    match n with
    | 0 => PollOutcome.notReady
    | 1 => PollOutcome.raises PyErr.staleElement
    | 2 => PollOutcome.val 7
    | _ => PollOutcome.notReady

/-- A concrete ignored set for the waitUntil witness: the two
element-lookup exceptions every wait in the module ignores. -/
def ignEx : PyErr → Bool :=
  fun e => e = PyErr.noSuchElement ∨ e = PyErr.staleElement

/-- Witness for the C4 contract: on the concrete predicate the helper
returns the truthy value at step two of a five-step deadline. -/
theorem waitUntil_contract_witness :
    waitUntil predEx 5 ignEx = Except.ok (7, 2) :=
  (waitUntil_contract predEx 5 ignEx).1 2 7 (by decide)
    (by decide) (by decide)

/-- Model of the tenacity retry decorator built at lines 30-35 of
src/src/vws_web_tools/__init__.py: retry on TimeoutException only, stop
after the given number of attempts, raising RetryError when the stop
condition is reached on a retryable failure.  The function argument
gives the outcome of each successive attempt, fuel is the number of
attempts still allowed, k the number of attempts already made; the
result pairs the final outcome with the total number of attempts
made. -/
def tenacityAttempts (attempt : Nat → Except PyErr α) :
    Nat → Nat → Except PyErr α × Nat
  | 0, k => (Except.error PyErr.retryErr, k)
  | fuel + 1, k =>
    match attempt k with
    | Except.ok a => (Except.ok a, k + 1)
    | Except.error e =>
      if e = PyErr.timeoutExc then tenacityAttempts attempt fuel (k + 1)
      else (Except.error e, k + 1)

/-- Embedding of log_in (lines 160-171), which the timeout retry
decorator wraps with stop_after_attempt 3: the whole login flow is
attempted up to three times, retrying on TimeoutException only.  Each
attempt abstracts one run of _log_in_once followed by
wait_for_logged_in. -/
def log_in (attempt : Nat → Except PyErr Unit) : Except PyErr Unit × Nat :=
  tenacityAttempts attempt 3 0

/-- The concrete attempt outcomes refuting C5 as stated: the first two
whole-flow attempts time out and the third succeeds. -/
def c5Attempts : Nat → Except PyErr Unit :=
  fun k => if k < 2 then Except.error PyErr.timeoutExc else Except.ok ()

/-- Counterexample to claim C5 as stated: after a first timeout the
login flow is not retried just once; on these outcomes the code makes
three attempts in total and succeeds on the third, which a single
whole-flow retry would never reach. -/
theorem log_in_retry_c5_counterexample :
    log_in c5Attempts = (Except.ok (), 3)
    ∧ ¬ ((log_in c5Attempts).2 ≤ 2) := by
  refine ⟨by rfl, by decide⟩

/-- One unfolding of the tenacity model: a timed-out attempt consumes
one unit of fuel and moves to the next attempt. -/
lemma tenacityAttempts_step_timeout (attempt : Nat → Except PyErr α)
    (fuel start : Nat)
    (h : attempt start = Except.error PyErr.timeoutExc) :
    tenacityAttempts attempt (fuel + 1) start
      = tenacityAttempts attempt fuel (start + 1) := by
  simp [tenacityAttempts, h]

/-- The attempt counter of the tenacity model never exceeds the number
of attempts already made plus the remaining fuel. -/
lemma tenacityAttempts_count_le (attempt : Nat → Except PyErr α) :
    ∀ fuel start, (tenacityAttempts attempt fuel start).2 ≤ start + fuel := by
  intro fuel
  induction fuel with
  | zero => intro start; simp [tenacityAttempts]
  | succ n ih =>
    intro start
    cases ha : attempt start with
    | ok a => simp [tenacityAttempts, ha]
    | error e =>
      by_cases he : e = PyErr.timeoutExc
      · have h0 : attempt start = Except.error PyErr.timeoutExc := by
          rw [ha, he]
        rw [tenacityAttempts_step_timeout attempt n start h0]
        have := ih (start + 1)
        omega
      · simp [tenacityAttempts, ha, he]

/-- With at least one unit of fuel the tenacity model makes at least
one attempt. -/
lemma tenacityAttempts_count_ge_succ (attempt : Nat → Except PyErr α) :
    ∀ n start, start + 1 ≤ (tenacityAttempts attempt (n + 1) start).2 := by
  intro n
  induction n with
  | zero =>
    intro start
    cases ha : attempt start with
    | ok a => simp [tenacityAttempts, ha]
    | error e =>
      by_cases he : e = PyErr.timeoutExc
      · have h0 : attempt start = Except.error PyErr.timeoutExc := by
          rw [ha, he]
        rw [tenacityAttempts_step_timeout attempt 0 start h0]
        simp [tenacityAttempts]
      · simp [tenacityAttempts, ha, he]
  | succ m ih =>
    intro start
    cases ha : attempt start with
    | ok a => simp [tenacityAttempts, ha]
    | error e =>
      by_cases he : e = PyErr.timeoutExc
      · have h0 : attempt start = Except.error PyErr.timeoutExc := by
          rw [ha, he]
        rw [tenacityAttempts_step_timeout attempt (m + 1) start h0]
        have := ih (start + 1)
        omega
      · simp [tenacityAttempts, ha, he]

/-- Success lemma for the tenacity model, generalized over the number
of attempts already made. -/
lemma tenacityAttempts_ok_at (attempt : Nat → Except PyErr α) :
    ∀ fuel start k a, k < fuel →
      (∀ j, j < k → attempt (start + j) = Except.error PyErr.timeoutExc) →
      attempt (start + k) = Except.ok a →
      tenacityAttempts attempt fuel start = (Except.ok a, start + k + 1) := by
  intro fuel
  induction fuel with
  | zero => intro start k a hk; omega
  | succ n ih =>
    intro start k a hk hq hv
    cases k with
    | zero =>
      simp only [Nat.add_zero] at hv
      simp [tenacityAttempts, hv]
    | succ m =>
      have h0 : attempt (start + 0) = Except.error PyErr.timeoutExc :=
        hq 0 (by omega)
      simp only [Nat.add_zero] at h0
      have hrec := ih (start + 1) m a (by omega)
        (fun j hj => by
          have := hq (j + 1) (by omega)
          simpa [Nat.add_assoc, Nat.add_comm 1 j] using this)
        (by simpa [Nat.add_assoc, Nat.add_comm 1 m] using hv)
      rw [tenacityAttempts_step_timeout attempt n start h0, hrec]
      have heq : start + 1 + m = start + (m + 1) := by omega
      rw [heq]

/-- Immediate propagation lemma for the tenacity model: an error other
than a timeout ends the flow at the attempt that raised it. -/
lemma tenacityAttempts_fail_at (attempt : Nat → Except PyErr α) :
    ∀ fuel start k e, k < fuel →
      (∀ j, j < k → attempt (start + j) = Except.error PyErr.timeoutExc) →
      attempt (start + k) = Except.error e →
      ¬ (e = PyErr.timeoutExc) →
      tenacityAttempts attempt fuel start = (Except.error e, start + k + 1) := by
  intro fuel
  induction fuel with
  | zero => intro start k e hk; omega
  | succ n ih =>
    intro start k e hk hq hv he
    cases k with
    | zero =>
      simp only [Nat.add_zero] at hv
      simp [tenacityAttempts, hv, he]
    | succ m =>
      have h0 : attempt (start + 0) = Except.error PyErr.timeoutExc :=
        hq 0 (by omega)
      simp only [Nat.add_zero] at h0
      have hrec := ih (start + 1) m e (by omega)
        (fun j hj => by
          have := hq (j + 1) (by omega)
          simpa [Nat.add_assoc, Nat.add_comm 1 j] using this)
        (by simpa [Nat.add_assoc, Nat.add_comm 1 m] using hv) he
      rw [tenacityAttempts_step_timeout attempt n start h0, hrec]
      have heq : start + 1 + m = start + (m + 1) := by omega
      rw [heq]

/-- Exhaustion lemma for the tenacity model: when every allowed attempt
times out, the decorator raises RetryError after using all fuel. -/
lemma tenacityAttempts_exhaust (attempt : Nat → Except PyErr α) :
    ∀ fuel start,
      (∀ j, j < fuel → attempt (start + j) = Except.error PyErr.timeoutExc) →
      tenacityAttempts attempt fuel start
        = (Except.error PyErr.retryErr, start + fuel) := by
  intro fuel
  induction fuel with
  | zero => intro start _; simp [tenacityAttempts]
  | succ n ih =>
    intro start hq
    have h0 : attempt (start + 0) = Except.error PyErr.timeoutExc :=
      hq 0 (by omega)
    simp only [Nat.add_zero] at h0
    have hrec := ih (start + 1)
      (fun j hj => by
        have := hq (j + 1) (by omega)
        simpa [Nat.add_assoc, Nat.add_comm 1 j] using this)
    rw [tenacityAttempts_step_timeout attempt n start h0, hrec]
    have heq : start + 1 + n = start + (n + 1) := by omega
    rw [heq]

/-- Claim C5 as amended: the whole login flow is retried at the
whole-flow level up to two more times, for at most three attempts in
total, and only on timeout: after any run of initial timeouts a
successful attempt ends the flow, a non-timeout error propagates
immediately at the attempt that raised it with no further retry, three
timeouts exhaust the retries, and a first timeout does trigger at least
one whole-flow retry. -/
theorem log_in_retry_contract (attempt : Nat → Except PyErr Unit) :
    ((log_in attempt).2 ≤ 3)
    ∧ (∀ k a, k < 3 →
        (∀ j, j < k → attempt j = Except.error PyErr.timeoutExc) →
        attempt k = Except.ok a →
        log_in attempt = (Except.ok a, k + 1))
    ∧ (∀ k e, k < 3 →
        (∀ j, j < k → attempt j = Except.error PyErr.timeoutExc) →
        attempt k = Except.error e → ¬ (e = PyErr.timeoutExc) →
        log_in attempt = (Except.error e, k + 1))
    ∧ ((∀ j, j < 3 → attempt j = Except.error PyErr.timeoutExc) →
        log_in attempt = (Except.error PyErr.retryErr, 3))
    ∧ (attempt 0 = Except.error PyErr.timeoutExc →
        2 ≤ (log_in attempt).2) := by
  refine ⟨?_, ?_, ?_, ?_, ?_⟩
  · simpa using tenacityAttempts_count_le attempt 3 0
  · intro k a hk hq hv
    have := tenacityAttempts_ok_at attempt 3 0 k a hk
      (fun j hj => by simpa using hq j hj) (by simpa using hv)
    simpa [log_in] using this
  · intro k e hk hq hv he
    have := tenacityAttempts_fail_at attempt 3 0 k e hk
      (fun j hj => by simpa using hq j hj) (by simpa using hv) he
    simpa [log_in] using this
  · intro hq
    have := tenacityAttempts_exhaust attempt 3 0
      (fun j hj => by simpa using hq j hj)
    simpa [log_in] using this
  · intro h0
    have hstep : log_in attempt = tenacityAttempts attempt 2 1 := by
      simp [log_in, tenacityAttempts, h0]
    rw [hstep]
    exact tenacityAttempts_count_ge_succ attempt 1 1

/-- Concrete attempt outcomes for the C5 witness: the first attempt
times out and the second raises a non-timeout error. -/
def c5WitnessAttempts : Nat → Except PyErr Unit :=
  fun k => if k = 0 then Except.error PyErr.timeoutExc
    else Except.error PyErr.indexErr

/-- Witness for the amended C5 contract: a timeout then a non-timeout
error stops the flow at the second attempt, propagating that error. -/
theorem log_in_retry_contract_witness :
    log_in c5WitnessAttempts = (Except.error PyErr.indexErr, 2) :=
  (log_in_retry_contract c5WitnessAttempts).2.2.1 1 PyErr.indexErr
    (by omega)
    (fun j hj => by
      have hj0 : j = 0 := by omega
      rw [hj0]; rfl)
    (by rfl) (by decide)

/-- The record scraped for a cloud database (the DatabaseDict TypedDict
at lines 51-59): a name and four access keys. -/
structure DatabaseDict where
  database_name : String
  server_access_key : String
  server_secret_key : String
  client_access_key : String
  client_secret_key : String

/-- The record scraped for a VuMark database (the VuMarkDatabaseDict
TypedDict at lines 62-71): a name and the two server keys only. -/
structure VuMarkDatabaseDict where
  database_name : String
  server_access_key : String
  server_secret_key : String

/-- Embedding of the env_var_format_details dictionary built at lines
1135-1141: the five fixed VUFORIA keys paired with the record fields,
in insertion order. -/
def env_var_format_details (d : DatabaseDict) : List (String × String) :=
  [ ("VUFORIA_TARGET_MANAGER_DATABASE_NAME", d.database_name),
    ("VUFORIA_SERVER_ACCESS_KEY", d.server_access_key),
    ("VUFORIA_SERVER_SECRET_KEY", d.server_secret_key),
    ("VUFORIA_CLIENT_ACCESS_KEY", d.client_access_key),
    ("VUFORIA_CLIENT_SECRET_KEY", d.client_secret_key) ]

/-- Embedding of the env_var_format_details dictionary built at lines
1177-1181 for a VuMark database: the three fixed VUFORIA keys paired
with the record fields. -/
def vumark_env_var_format_details (v : VuMarkDatabaseDict) :
    List (String × String) :=
  [ ("VUFORIA_TARGET_MANAGER_DATABASE_NAME", v.database_name),
    ("VUFORIA_SERVER_ACCESS_KEY", v.server_access_key),
    ("VUFORIA_SERVER_SECRET_KEY", v.server_secret_key) ]

/-- Modelled from the spec: yaml.dump (outside this repository) renders
the record as a structured document, one key-value line per field with
keys sorted alphabetically and the values carried unchanged. -/
def yaml_dump_lines (d : DatabaseDict) : List String :=
  [ "client_access_key: " ++ d.client_access_key,
    "client_secret_key: " ++ d.client_secret_key,
    "database_name: " ++ d.database_name,
    "server_access_key: " ++ d.server_access_key,
    "server_secret_key: " ++ d.server_secret_key ]

/-- Modelled from the spec: yaml.dump on the VuMark record, one
key-value line per field with keys sorted and values unchanged. -/
def vumark_yaml_dump_lines (v : VuMarkDatabaseDict) : List String :=
  [ "database_name: " ++ v.database_name,
    "server_access_key: " ++ v.server_access_key,
    "server_secret_key: " ++ v.server_secret_key ]

/-- Embedding of the output step of show_database_details (lines
1134-1146): with the env-var flag, one KEY=VALUE line per entry of the
env-var dictionary; without it, the yaml document of the same
record. -/
def show_database_details_output (envVarFormat : Bool) (d : DatabaseDict) :
    List String :=
  if envVarFormat then
    (env_var_format_details d).map (fun kv => kv.1 ++ "=" ++ kv.2)
  else yaml_dump_lines d

/-- Embedding of the output step of show_vumark_database_details
(lines 1176-1186). -/
def show_vumark_database_details_output (envVarFormat : Bool)
    (v : VuMarkDatabaseDict) : List String :=
  if envVarFormat then
    (vumark_env_var_format_details v).map (fun kv => kv.1 ++ "=" ++ kv.2)
  else vumark_yaml_dump_lines v

/-- Claim C8: with the env-var flag the cloud-database command prints
exactly one KEY=VALUE line per record field, five lines under the fixed
VUFORIA keys with each value unmodified, and the VuMark command prints
three; without the flag the same record is printed as the structured
document; the flag changes only the format, never the values. -/
theorem show_database_details_format (d : DatabaseDict)
    (v : VuMarkDatabaseDict) :
    show_database_details_output true d
      = [ "VUFORIA_TARGET_MANAGER_DATABASE_NAME=" ++ d.database_name,
          "VUFORIA_SERVER_ACCESS_KEY=" ++ d.server_access_key,
          "VUFORIA_SERVER_SECRET_KEY=" ++ d.server_secret_key,
          "VUFORIA_CLIENT_ACCESS_KEY=" ++ d.client_access_key,
          "VUFORIA_CLIENT_SECRET_KEY=" ++ d.client_secret_key ]
    ∧ (show_database_details_output true d).length = 5
    ∧ show_database_details_output false d = yaml_dump_lines d
    ∧ show_vumark_database_details_output true v
      = [ "VUFORIA_TARGET_MANAGER_DATABASE_NAME=" ++ v.database_name,
          "VUFORIA_SERVER_ACCESS_KEY=" ++ v.server_access_key,
          "VUFORIA_SERVER_SECRET_KEY=" ++ v.server_secret_key ]
    ∧ (show_vumark_database_details_output true v).length = 3
    ∧ show_vumark_database_details_output false v
      = vumark_yaml_dump_lines v := by
  exact ⟨rfl, rfl, rfl, rfl, rfl, rfl⟩

/-- Observable state of one CLI command invocation: how many browser
sessions were created and quit, and how many page navigations ran. -/
structure CliState where
  driversCreated : Nat
  driversQuit : Nat
  pagesVisited : Nat
deriving DecidableEq

/-- The state at the start of a command invocation. -/
def initCliState : CliState :=
  { driversCreated := 0, driversQuit := 0, pagesVisited := 0 }

/-- Embedding of create_chrome_driver (lines 38-48) at the level of the
session ledger: one more browser session exists. -/
def create_chrome_driver (s : CliState) : CliState :=
  { s with driversCreated := s.driversCreated + 1 }

/-- Embedding of driver.quit in the finally blocks: one more session
closed. -/
def quitDriver (s : CliState) : CliState :=
  { s with driversQuit := s.driversQuit + 1 }

/-- One page navigation (driver.get) performed by a flow. -/
def visitPage (s : CliState) : CliState :=
  { s with pagesVisited := s.pagesVisited + 1 }

/-- Embedding of the Python try-finally statement every CLI command
wraps its flows in: the finalizer runs after the body whether the body
returned normally or raised, and a raised exception is rethrown after
the finalizer has run. -/
def tryFinally {α : Type} (body : CliState → Except PyErr α × CliState)
    (fin : CliState → CliState) (s : CliState) :
    Except PyErr α × CliState :=
  let (r, s1) := body s
  (r, fin s1)

/-- One flow call: it navigates to a page and either returns its result
or raises; the outcome is the abstract parameter res. -/
def flowStep {α : Type} (res : Except PyErr α) (s : CliState) :
    Except PyErr α × CliState :=
  (res, visitPage s)

/-- Python sequencing of two flow calls: the second runs only when the
first returned normally. -/
def seqFlows {α : Type} (f : CliState → Except PyErr Unit × CliState)
    (g : CliState → Except PyErr α × CliState) (s : CliState) :
    Except PyErr α × CliState :=
  match f s with
  | (Except.ok _, s1) => g s1
  | (Except.error e, s1) => (Except.error e, s1)

/-- Embedding of the create_vws_license command (lines 896-913): create
the driver, then under try-finally run log_in and create_license, and
quit the driver in the finally block.  The parameters abstract the
outcomes of the two flow calls. -/
def create_vws_license (loginRes createRes : Except PyErr Unit) :
    Except PyErr Unit × CliState :=
  tryFinally (seqFlows (flowStep loginRes) (flowStep createRes))
    quitDriver (create_chrome_driver initCliState)

/-- Embedding of the session part of the show_database_details command
(lines 1113-1133): create the driver, then under try-finally run log_in
and get_database_details, and quit the driver in the finally block. -/
def show_database_details_session (loginRes : Except PyErr Unit)
    (detailsRes : Except PyErr DatabaseDict) :
    Except PyErr DatabaseDict × CliState :=
  tryFinally (seqFlows (flowStep loginRes) (flowStep detailsRes))
    quitDriver (create_chrome_driver initCliState)

/-- Claim C6: on every exit path of a CLI command that acquires a
browser session, normal completion and every exception from login or
from the flow alike, exactly the one created session is quit before the
command finishes, and the flow outcome, exceptions included, is still
the one surfaced after the finalizer. -/
theorem cli_session_always_closed (loginRes createRes : Except PyErr Unit)
    (detailsRes : Except PyErr DatabaseDict) :
    ((create_vws_license loginRes createRes).2.driversQuit
        = (create_vws_license loginRes createRes).2.driversCreated)
    ∧ (create_vws_license loginRes createRes).2.driversCreated = 1
    ∧ (create_vws_license loginRes createRes).1
        = loginRes.bind (fun _ => createRes)
    ∧ ((show_database_details_session loginRes detailsRes).2.driversQuit
        = (show_database_details_session loginRes detailsRes).2.driversCreated)
    ∧ (show_database_details_session loginRes detailsRes).2.driversCreated = 1
    ∧ (show_database_details_session loginRes detailsRes).1
        = loginRes.bind (fun _ => detailsRes) := by
  cases loginRes <;> cases createRes <;> cases detailsRes <;>
    simp [create_vws_license, show_database_details_session, tryFinally,
      seqFlows, flowStep, create_chrome_driver, quitDriver, visitPage,
      initCliState, Except.bind]

/-- One click option declaration: its flag name, whether it is
required, and the environment variable it falls back to. -/
structure ClickOption where
  name : String
  required : Bool
  envvar : Option String

/-- Modelled from the spec: click resolves an option value from the
command line first and then from the declared environment variable. -/
def resolveOption (provided env : List (String × String))
    (o : ClickOption) : Option String :=
  match provided.lookup o.name with
  | some v => some v
  | none =>
    match o.envvar with
    | some ev => env.lookup ev
    | none => none

/-- Modelled from the spec: the first declared required option that
resolves to no value, if any. -/
def missingRequired (provided env : List (String × String)) :
    List ClickOption → Option String
  | [] => none
  | o :: os =>
    if o.required && (resolveOption provided env o).isNone then some o.name
    else missingRequired provided env os

/-- The outcome of one CLI invocation: a usage error naming the missing
option, or the result of the command callback. -/
inductive CmdResult (α : Type) where
  | usageError (optName : String)
  | ran (r : α)
deriving DecidableEq

/-- Modelled from the spec: click invokes the command callback only
after every required option resolved; a missing required option is
rejected with a usage error first, so the callback side effects never
happen. -/
def clickInvoke {α : Type} (opts : List ClickOption)
    (provided env : List (String × String))
    (body : Unit → Except PyErr α × CliState) :
    CmdResult (Except PyErr α) × CliState :=
  match missingRequired provided env opts with
  | some n => (CmdResult.usageError n, initCliState)
  | none =>
    let (r, s) := body ()
    (CmdResult.ran r, s)

/-- The option declarations of the create-vws-cloud-database command
(lines 940-944): all four options are required, the credentials fall
back to environment variables. -/
def create_vws_cloud_database_options : List ClickOption :=
  [ { name := "license-name", required := true, envvar := none },
    { name := "database-name", required := true, envvar := none },
    { name := "email-address", required := true,
      envvar := some ("VWS_EMAIL_ADDRESS") },
    { name := "password", required := true,
      envvar := some ("VWS_PASSWORD") } ]

/-- Embedding of the create_vws_cloud_database command (lines 940-967):
click option parsing in front of a callback that creates the driver and
runs log_in and create_cloud_database under try-finally. -/
def create_vws_cloud_database (provided env : List (String × String))
    (loginRes flowRes : Except PyErr Unit) :
    CmdResult (Except PyErr Unit) × CliState :=
  clickInvoke create_vws_cloud_database_options provided env
    (fun _ =>
      tryFinally (seqFlows (flowStep loginRes) (flowStep flowRes))
        quitDriver (create_chrome_driver initCliState))

/-- Claim C7: an invocation of the cloud-database command without the
required license name is rejected with a usage error naming that
option, before any browser interaction: no browser session is created
and no page is visited. -/
theorem cloud_database_missing_license_rejected
    (provided env : List (String × String))
    (loginRes flowRes : Except PyErr Unit)
    (h : provided.lookup ("license-name") = none) :
    create_vws_cloud_database provided env loginRes flowRes
      = (CmdResult.usageError ("license-name"), initCliState)
    ∧ (create_vws_cloud_database provided env loginRes flowRes).2.driversCreated
        = 0
    ∧ (create_vws_cloud_database provided env loginRes flowRes).2.pagesVisited
        = 0 := by
  have hm : missingRequired provided env create_vws_cloud_database_options
      = some ("license-name") := by
    simp [missingRequired, create_vws_cloud_database_options, resolveOption, h]
  refine ⟨?_, ?_, ?_⟩ <;>
    simp [create_vws_cloud_database, clickInvoke, hm, initCliState]

/-- A concrete invocation for the C7 witness: every option except the
license name is supplied by flag or environment variable. -/
def c7Provided : List (String × String) :=
  [ ("database-name", "my-database"), ("email-address", "user") ]

/-- The concrete environment for the C7 witness. -/
def c7Env : List (String × String) :=
  [ ("VWS_PASSWORD", "secret") ]

/-- Witness for C7: the concrete invocation with no license name is a
usage error over the untouched initial state. -/
theorem cloud_database_missing_license_rejected_witness :
    create_vws_cloud_database c7Provided c7Env (Except.ok ()) (Except.ok ())
      = (CmdResult.usageError ("license-name"), initCliState) :=
  (cloud_database_missing_license_rejected c7Provided c7Env
    (Except.ok ()) (Except.ok ()) (by decide)).1

end VwsWebTools
